import Mathlib

/-!
The yt-go-plugin Fibonacci service, its cache contract and the backend loader.

A shallow embedding of `internal/fibonacci/fibonacci.go`, `cache/cache.go` and
`main.go`.  Go's `int64` is modelled by `Int` with every arithmetic result
reduced into the two's-complement range by `wrapInt64`.
-/

namespace YtGoPlugin

/-! ## int64 arithmetic -/

/-- Smallest `int64` value, `-2^63`. -/
def minInt64 : Int := -9223372036854775808

/-- Largest `int64` value, `2^63 - 1`. -/
def maxInt64 : Int := 9223372036854775807

/-- Membership in the `int64` range. -/
def isInt64 (x : Int) : Prop := minInt64 ≤ x ∧ x ≤ maxInt64

instance (x : Int) : Decidable (isInt64 x) := by
  unfold isInt64; exact inferInstance

/-- Two's-complement reduction of a mathematical integer to `int64`: what Go's
`+` and `-` on `int64` operands yield for the exact result `x`. -/
def wrapInt64 (x : Int) : Int :=
  (x + 9223372036854775808) % 18446744073709551616 - 9223372036854775808

/-! ## `Fibonacci` (fibonacci.go, lines 13-20) -/

/-- The value the source's `Fibonacci(n int64) int64` returns: `n` itself when
`n <= 1`, else the `int64` sum of the two recursive calls on the `int64` values
`n-1` and `n-2`.  Whether the call gets to return at all on a goroutine stack of
a given size is the matter of `FibonacciRun` below. -/
def Fibonacci (n : Int) : Int :=
  if n ≤ 1 then n
  else wrapInt64 (Fibonacci (wrapInt64 (n - 1)) + Fibonacci (wrapInt64 (n - 2)))
termination_by n.toNat
decreasing_by
  all_goals simp only [wrapInt64]
  all_goals omega

/-- The source's `Fibonacci` instrumented with an overflow flag: the second
component is `true` exactly when some `int64` subtraction or addition executed
in the call tree had an exact result outside the `int64` range. -/
def FibonacciOv (n : Int) : Int × Bool :=
  if n ≤ 1 then (n, false)
  else
    let a := FibonacciOv (wrapInt64 (n - 1))
    let b := FibonacciOv (wrapInt64 (n - 2))
    (wrapInt64 (a.1 + b.1),
      a.2 || b.2 || decide (¬ isInt64 (n - 1)) || decide (¬ isInt64 (n - 2))
        || decide (¬ isInt64 (a.1 + b.1)))
termination_by n.toNat
decreasing_by
  all_goals simp only [wrapInt64]
  all_goals omega

/-- The source's `Fibonacci` run on a goroutine stack with room for `depth`
nested frames of it.  Every call takes one frame, and the frames of the calls
it makes lie on top of its own; a call for which no frame is left is the
runtime's fatal stack overflow, which ends the whole process: `none`.
Otherwise the result is the returned value. -/
def FibonacciRun : Nat → Int → Option Int
  | 0, _ => none
  | depth + 1, n =>
    if n ≤ 1 then some n
    else
      match FibonacciRun depth (wrapInt64 (n - 1)) with
      | none => none
      | some a =>
        match FibonacciRun depth (wrapInt64 (n - 2)) with
        | none => none
        | some b => some (wrapInt64 (a + b))

/-- The reference sequence in the words of the specification: `F(0)=0`,
`F(1)=1`, `F(n)=F(n-1)+F(n-2)` for `n ≥ 2`, over the integers. -/
def specF : Nat → Int
  | 0 => 0
  | 1 => 1
  | n + 2 => specF (n + 1) + specF n

/-! ## `strconv` as the handler uses it: `ParseInt(s, 10, 64)` and `FormatInt(v, 10)`

Go strings are byte sequences; here a string is a `String` read through its
characters.  A character outside ASCII stands for bytes `≥ 0x80`, which like it
are neither digits nor letters, so both readings reject it the same way. -/

/-- The two error kinds of `strconv.NumError`. -/
inductive NumError
  | ErrSyntax
  | ErrRange
  deriving DecidableEq, Repr

/-- The constant `maxUint64 = 1<<64 - 1`. -/
def maxUint64 : Nat := 18446744073709551615

/-- The digit value `ParseUint` assigns to a byte: `c - '0'` for `'0'..'9'`,
`lower(c) - 'a' + 10` for a letter (`lower(c) = c | ('x' - 'X')`), and no value
(the `default:` case) for anything else. -/
def digitVal (c : Char) : Option Nat :=
  if 48 ≤ c.toNat ∧ c.toNat ≤ 57 then some (c.toNat - 48)
  else if 97 ≤ (c.toNat ||| 32) ∧ (c.toNat ||| 32) ≤ 122 then
    some ((c.toNat ||| 32) - 97 + 10)
  else none

/-- The loop of `strconv.ParseUint(s, 10, 64)` over the remaining bytes with
accumulator `n`: a byte without a digit value below the base ends it with
`(0, ErrSyntax)`; an overflow of `n*10` (`n >= cutoff`, `cutoff = maxUint64/10 + 1`)
or of `n*10 + d` ends it at once with `(maxVal, ErrRange)`. -/
def parseUintLoop : List Char → Nat → Nat × Option NumError
  | [], n => (n, none)
  | c :: cs, n =>
    match digitVal c with
    | none => (0, some NumError.ErrSyntax)
    | some d =>
      if d ≥ 10 then (0, some NumError.ErrSyntax)
      else if n ≥ maxUint64 / 10 + 1 then (maxUint64, some NumError.ErrRange)
      else
        let n10 := n * 10 % 18446744073709551616
        let n1 := (n10 + d) % 18446744073709551616
        if n1 < n10 ∨ n1 > maxUint64 then (maxUint64, some NumError.ErrRange)
        else parseUintLoop cs n1

/-- The call `strconv.ParseUint(s, 10, 64)` on the bytes `s`. -/
def ParseUint (s : List Char) : Nat × Option NumError :=
  if s = [] then (0, some NumError.ErrSyntax) else parseUintLoop s 0

/-- The part of `strconv.ParseInt(s, 10, 64)` after the leading sign has been
picked off (`neg` tells whether it was `'-'`): `ParseUint` on the rest, its
syntax error passed on with value 0, then the range check against
`cutoff = 1 << 63` and the conversion `int64(un)`, negated when `neg`. -/
def parseIntBody (neg : Bool) (body : List Char) : Int × Option NumError :=
  let r := ParseUint body
  if r.2 = some NumError.ErrSyntax then (0, some NumError.ErrSyntax)
  else if neg = false ∧ r.1 ≥ 9223372036854775808 then
    (9223372036854775807, some NumError.ErrRange)
  else if neg = true ∧ r.1 > 9223372036854775808 then
    (-9223372036854775808, some NumError.ErrRange)
  else
    let n := wrapInt64 (r.1 : Int)
    (if neg then wrapInt64 (-n) else n, none)

/-- The call `strconv.ParseInt(s, 10, 64)`: the returned `int64` and the error (`none`
is Go's `nil`).  The empty string is a syntax error; a leading `'+'` or `'-'`
is removed before the digits are read. -/
def ParseInt (s : String) : Int × Option NumError :=
  match s.data with
  | [] => (0, some NumError.ErrSyntax)
  | c :: cs => parseIntBody (decide (c = '-')) (if c = '+' ∨ c = '-' then cs else c :: cs)

/-- The decimal digit byte for `d < 10`. -/
def digitChar (d : Nat) : Char := Char.ofNat (48 + d)

/-- The decimal digits of `u`, most significant first, as `formatBits` writes
them for base 10 (`"0"` for zero, no leading zero otherwise). -/
def formatDec (u : Nat) : List Char :=
  if u < 10 then [digitChar u] else formatDec (u / 10) ++ [digitChar (u % 10)]
termination_by u
decreasing_by omega

/-- The call `strconv.FormatInt(i, 10)`: for a negative `i` a `'-'` followed by the
digits of the `uint64` value `-uint64(i)`, else the digits of `i`. -/
def FormatInt (i : Int) : String :=
  if i < 0 then String.mk ('-' :: formatDec ((-i) % 18446744073709551616).toNat)
  else String.mk (formatDec (i % 18446744073709551616).toNat)

/-! ## The cache contract (cache.go) -/

/-- The source's `type consterror int`. -/
abbrev consterror := Int

/-- The constant `ErrNotFound consterror = iota`. -/
def ErrNotFound : consterror := 0

/-- The constant `ErrExpired`, the second constant of the `iota` block. -/
def ErrExpired : consterror := 1

/-- The table `_text` read by `Error()`. -/
def _text (e : consterror) : Option String :=
  if e = ErrNotFound then some "cache: key not found"
  else if e = ErrExpired then some "cache: key expired"
  else none

/-- The method `func (e consterror) Error() string`. -/
def consterror.Error (e : consterror) : String :=
  match _text e with
  | none => "cache: unknown error"
  | some txt => txt

/-- A non-nil Go `error` as a cache backend can return it: one of the package's
`consterror` values or any other error, kept by its message. -/
inductive GoError
  | cache (e : consterror)
  | other (msg : String)
  deriving DecidableEq, Repr

/-- The part of a `context.Context` the program reads: whether `Done()` is
closed. -/
structure Context where
  done : Bool
  deriving DecidableEq, Repr

/-- The logger handed around by the program (`*slog.Logger`), kept by its
minimum level. -/
structure Logger where
  level : Int
  deriving DecidableEq, Repr

/-- The interface `Cache` over a backend state `σ`: `Set(ctx, key, val, exp)`
returns the new state and the error; `Get(ctx, key)` the new state, the value
and the error (`none` is `nil`).  `exp` is a `time.Duration`, an `int64`
number of nanoseconds. -/
structure Cache (σ : Type) where
  Set : σ → Context → String → String → Int → σ × Option GoError
  Get : σ → Context → String → σ × String × Option GoError

/-- The state of `nopCache` (`type nopCache int`, only value `NopCache = 0`):
nothing is stored. -/
abbrev nopCache := Unit

/-- The singleton `NopCache` with its two methods: `Set` returns `nil`, `Get`
returns `("", ErrNotFound)`. -/
def NopCache : Cache nopCache where
  Set := fun s _ _ _ _ => (s, none)
  Get := fun s _ _ => (s, "", some (GoError.cache ErrNotFound))

/-! ## The request handler (fibonacci.go, lines 22-74) -/

/-- A value placed in the response map (`map[string]any`). -/
inductive JSONValue
  | str (s : String)
  | int (v : Int)
  deriving DecidableEq, Repr

/-- What `sendJSON` writes: the `Content-Type` header, the status code and the
encoded map. -/
structure Response where
  contentType : String
  code : Nat
  body : List (String × JSONValue)
  deriving DecidableEq, Repr

/-- The observable actions of a request, in program order. -/
inductive Event
  | log (level : String) (msg : String)
  | cacheGet (key : String)
  | cacheSet (key : String) (val : String) (exp : Int)
  | fibonacci (n : Int)
  deriving DecidableEq, Repr

/-- The function `sendJSON(l, w, v, code)`: sets the header, writes the status and encodes
`v` (encoding a string or an `int64` cannot fail). -/
def sendJSON (v : List (String × JSONValue)) (code : Nat) : Response :=
  { contentType := "application/json", code := code, body := v }

/-- The body of the goroutine (lines 41-57) when its call of `Fibonacci`
returns: the cache state it leaves, the actions it performs and the value it
sends on `result`. -/
def worker {σ : Type} (c : Cache σ) (exp : Int) (ctx : Context) (param : String)
    (n : Int) (s : σ) : σ × List Event × Int :=
  match c.Get s ctx param with
  | (s1, _, some _) =>
    let v := Fibonacci n
    match c.Set s1 ctx param (FormatInt v) exp with
    | (s2, some _) =>
      (s2, [Event.cacheGet param, Event.log "DEBUG" "cache miss; calculating the fib(n)",
            Event.fibonacci n, Event.log "DEBUG" "fib(n) calculated",
            Event.cacheSet param (FormatInt v) exp, Event.log "ERROR" "cannot set cache"], v)
    | (s2, none) =>
      (s2, [Event.cacheGet param, Event.log "DEBUG" "cache miss; calculating the fib(n)",
            Event.fibonacci n, Event.log "DEBUG" "fib(n) calculated",
            Event.cacheSet param (FormatInt v) exp], v)
  | (s1, cached, none) =>
    (s1, [Event.cacheGet param, Event.log "DEBUG" "cache hit; returning the cached value"],
      (ParseInt cached).1)

/-- Which case of the handler's `select` (lines 59-64) is taken. -/
inductive SelectCase
  | result
  | ctxDone
  deriving DecidableEq, Repr

/-- The handler returned by `NewHandler(l, c, exp)` run on a request with path
value `param` and context `ctx`, from cache state `s`, when the goroutine's
call of `Fibonacci` returns: the cache state left by the request, the actions
in program order (the goroutine's before the handler's own later ones) and the
response written, if any.  `sel` is the `select` case taken; with
`SelectCase.ctxDone` the goroutine's value is never received. -/
def NewHandler {σ : Type} (_l : Logger) (c : Cache σ) (exp : Int) (ctx : Context)
    (sel : SelectCase) (param : String) (s : σ) : σ × List Event × Option Response :=
  match ParseInt param with
  | (_, some _) =>
    (s, [Event.log "ERROR" "cannot parse path value", Event.log "INFO" "request completed"],
      some (sendJSON [("error", JSONValue.str "invalid value")] 400))
  | (n, none) =>
    match worker c exp ctx param n s with
    | (s1, evs, v) =>
      match sel with
      | SelectCase.result =>
        (s1, evs ++ [Event.log "INFO" "request completed"],
          some (sendJSON [("result", JSONValue.int v)] 200))
      | SelectCase.ctxDone =>
        (s1, evs ++ [Event.log "INFO" "request cancelled",
                     Event.log "INFO" "request completed"], none)

/-! ## The request handler on a bounded goroutine stack -/

/-- The body of the goroutine (lines 41-57) on a stack with room for `depth`
nested frames of `Fibonacci`: `none` when the call at line 45 overflows the
stack (the process ends there, before `Set` and before the send), else the
cache state left, the actions and the value sent on `result`. -/
def workerRun {σ : Type} (depth : Nat) (c : Cache σ) (exp : Int) (ctx : Context)
    (param : String) (n : Int) (s : σ) : Option (σ × List Event × Int) :=
  match c.Get s ctx param with
  | (s1, _, some _) =>
    match FibonacciRun depth n with
    | none => none
    | some v =>
      match c.Set s1 ctx param (FormatInt v) exp with
      | (s2, some _) =>
        some (s2, [Event.cacheGet param, Event.log "DEBUG" "cache miss; calculating the fib(n)",
              Event.fibonacci n, Event.log "DEBUG" "fib(n) calculated",
              Event.cacheSet param (FormatInt v) exp, Event.log "ERROR" "cannot set cache"], v)
      | (s2, none) =>
        some (s2, [Event.cacheGet param, Event.log "DEBUG" "cache miss; calculating the fib(n)",
              Event.fibonacci n, Event.log "DEBUG" "fib(n) calculated",
              Event.cacheSet param (FormatInt v) exp], v)
  | (s1, cached, none) =>
    some (s1, [Event.cacheGet param, Event.log "DEBUG" "cache hit; returning the cached value"],
      (ParseInt cached).1)

/-- The handler returned by `NewHandler(l, c, exp)` run on a request whose
goroutine stack has room for `depth` nested frames of `Fibonacci`: `none` when
the process ends in a stack overflow (nothing is written to the client), else
the cache state left, the actions in program order and the response written,
if any. -/
def NewHandlerRun {σ : Type} (depth : Nat) (_l : Logger) (c : Cache σ) (exp : Int)
    (ctx : Context) (sel : SelectCase) (param : String) (s : σ) :
    Option (σ × List Event × Option Response) :=
  match ParseInt param with
  | (_, some _) =>
    some (s, [Event.log "ERROR" "cannot parse path value", Event.log "INFO" "request completed"],
      some (sendJSON [("error", JSONValue.str "invalid value")] 400))
  | (n, none) =>
    match workerRun depth c exp ctx param n s with
    | none => none
    | some (s1, evs, v) =>
      match sel with
      | SelectCase.result =>
        some (s1, evs ++ [Event.log "INFO" "request completed"],
          some (sendJSON [("result", JSONValue.int v)] 200))
      | SelectCase.ctxDone =>
        some (s1, evs ++ [Event.log "INFO" "request cancelled",
                          Event.log "INFO" "request completed"], none)

/-! ## The handler and its goroutine as two tasks (lines 40-64)

The handler creates the unbuffered channel `result` (`make(chan int64)`),
starts the goroutine and waits in `select`.  A send on an unbuffered channel
completes only together with a receive. -/

/-- Where the goroutine stands. -/
inductive TaskPC
  | atGet
  | atFibonacci
  | atSet (v : Int)
  | atSend (v : Int)
  | returned
  deriving DecidableEq, Repr

/-- Where the handler stands after starting the goroutine. -/
inductive HandlerPC
  | atSelect
  | sentResult (v : Int)
  | returnedCancelled
  deriving DecidableEq, Repr

/-- The state of one request after the goroutine has been started. -/
structure ReqState (σ : Type) where
  cache : σ
  ctx : Context
  task : TaskPC
  handler : HandlerPC

/-- The state right after `go func() {...}()` (line 57) for an uncancelled
context. -/
def ReqState.init {σ : Type} (s : σ) : ReqState σ :=
  { cache := s, ctx := { done := false }, task := TaskPC.atGet, handler := HandlerPC.atSelect }

/-- The things that can happen next: the goroutine runs its next statement, the
`select` receives from `result`, the request's context gets cancelled, the
`select` takes `<-ctx.Done()`. -/
inductive Move
  | task
  | receive
  | cancel
  | ctxDone
  deriving DecidableEq, Repr

/-- One move from a state, `none` when the move is not possible there.  The
goroutine at `result <- v` cannot move on its own: the send happens only as
`Move.receive`, with the handler still in `select`. -/
def step {σ : Type} (c : Cache σ) (exp : Int) (param : String) (n : Int) :
    Move → ReqState σ → Option (ReqState σ)
  | Move.task, st =>
    match st.task with
    | TaskPC.atGet =>
      match c.Get st.cache st.ctx param with
      | (s1, _, some _) => some { st with cache := s1, task := TaskPC.atFibonacci }
      | (s1, cached, none) =>
        some { st with cache := s1, task := TaskPC.atSend (ParseInt cached).1 }
    | TaskPC.atFibonacci => some { st with task := TaskPC.atSet (Fibonacci n) }
    | TaskPC.atSet v =>
      some { st with cache := (c.Set st.cache st.ctx param (FormatInt v) exp).1,
                     task := TaskPC.atSend v }
    | TaskPC.atSend _ => none
    | TaskPC.returned => none
  | Move.receive, st =>
    match st.task, st.handler with
    | TaskPC.atSend v, HandlerPC.atSelect =>
      some { st with task := TaskPC.returned, handler := HandlerPC.sentResult v }
    | _, _ => none
  | Move.cancel, st => some { st with ctx := { done := true } }
  | Move.ctxDone, st =>
    match st.handler, st.ctx.done with
    | HandlerPC.atSelect, true => some { st with handler := HandlerPC.returnedCancelled }
    | _, _ => none

/-- A schedule run from a state; a move that is not possible is skipped. -/
def run {σ : Type} (c : Cache σ) (exp : Int) (param : String) (n : Int) :
    List Move → ReqState σ → ReqState σ
  | [], st => st
  | m :: ms, st =>
    match step c exp param n m st with
    | some st1 => run c exp param n ms st1
    | none => run c exp param n ms st

/-! ## A store backend for the idempotence property -/

/-- The state of the store: a clock and the entries `(key, value, expires-at)`,
newest first. -/
structure Store where
  now : Int
  entries : List (String × String × Int)
  deriving DecidableEq, Repr

/-- The empty store at time `t`. -/
def Store.empty (t : Int) : Store := { now := t, entries := [] }

/-- The clock advanced by `d`. -/
def Store.tick (st : Store) (d : Int) : Store := { st with now := st.now + d }

/-- The entry last set under `key`. -/
def Store.find (key : String) : List (String × String × Int) → Option (String × Int)
  | [] => none
  | (k, v, t) :: rest => if k = key then some (v, t) else Store.find key rest

/-- A backend that keeps what it is given: `Get` returns the value last `Set`
under the key while its TTL has not elapsed, `ErrExpired` after that and
`ErrNotFound` for a key never set; `Set` always succeeds. -/
def storeCache : Cache Store where
  Set := fun st _ key val exp => ({ st with entries := (key, val, st.now + exp) :: st.entries }, none)
  Get := fun st _ key =>
    match Store.find key st.entries with
    | none => (st, "", some (GoError.cache ErrNotFound))
    | some (v, t) => if st.now < t then (st, v, none) else (st, "", some (GoError.cache ErrExpired))

/-! ## The backend loader (main.go, lines 58-84) -/

/-- The actions of the loader that reach outside the program. -/
inductive LoadEvent
  | logInfo (msg : String)
  | pluginOpen (path : String)
  | lookup (name : String)
  | factoryCall
  deriving DecidableEq, Repr

/-- Package `plugin` and the loaded module as the loader uses them:
`plugin.Open`, `(*Plugin).Lookup`, the type assertion `sym.(*cache.Factory)`
giving the factory, which returns a cache (or `nil`) and an error (or `nil`). -/
structure PluginSystem (P S C : Type) where
  Open : String → Except String P
  Lookup : P → String → Except String S
  asFactory : S → Option (Logger → Option C × Option String)

/-- A non-nil value of interface type `cache.Cache` held by the program. -/
inductive CacheValue (C : Type)
  | NopCache
  | plugin (c : C)
  deriving DecidableEq, Repr

/-- The errors `loadCachePlugin` returns, by the `fmt.Errorf` that builds them
(the last one is the factory's own error, returned as is). -/
inductive LoadError
  | openPlugin (path : String) (cause : String)
  | lookupSymbol (cause : String)
  | unexpectedType
  | factory (cause : String)
  deriving DecidableEq, Repr

/-- The function `loadCachePlugin(log, path, name)`: the returned cache (`none`
is `nil`), the returned error and the actions performed. -/
def loadCachePlugin {P S C : Type} (sys : PluginSystem P S C) (log : Logger)
    (path : String) (name : String) :
    Option (CacheValue C) × Option LoadError × List LoadEvent :=
  if path = "" then
    (some CacheValue.NopCache, none,
      [LoadEvent.logInfo "no cache plugin configured; using nop cache"])
  else
    match sys.Open path with
    | Except.error e => (none, some (LoadError.openPlugin path e), [LoadEvent.pluginOpen path])
    | Except.ok plug =>
      match sys.Lookup plug name with
      | Except.error e =>
        (none, some (LoadError.lookupSymbol e),
          [LoadEvent.pluginOpen path, LoadEvent.lookup name])
      | Except.ok sym =>
        match sys.asFactory sym with
        | none =>
          (none, some LoadError.unexpectedType,
            [LoadEvent.pluginOpen path, LoadEvent.lookup name])
        | some factory =>
          ((factory log).1.map CacheValue.plugin, (factory log).2.map LoadError.factory,
            [LoadEvent.pluginOpen path, LoadEvent.lookup name, LoadEvent.factoryCall])

/-! ## The grammar of a decimal integer -/

/-- A decimal digit byte, `'0'..'9'`. -/
def isDigit (c : Char) : Bool := decide (48 ≤ c.toNat ∧ c.toNat ≤ 57)

/-- A syntactically valid base-10 integer: an optional sign `+` or `-`
followed by one or more decimal digits and nothing else. -/
def isDecimalSyntax (s : String) : Bool :=
  match s.data with
  | [] => false
  | c :: cs =>
    let body := if c = '+' ∨ c = '-' then cs else c :: cs
    !body.isEmpty && body.all isDigit

/-! ## Facts about `Fibonacci` -/

theorem wrapInt64_of_isInt64 {x : Int} (h : isInt64 x) : wrapInt64 x = x := by
  unfold isInt64 minInt64 maxInt64 at h
  unfold wrapInt64
  omega

theorem wrapInt64_isInt64 (x : Int) : isInt64 (wrapInt64 x) := by
  unfold isInt64 minInt64 maxInt64 wrapInt64
  omega

theorem wrapInt64_add_wrap (a b : Int) :
    wrapInt64 (wrapInt64 a + wrapInt64 b) = wrapInt64 (a + b) := by
  unfold wrapInt64
  omega

theorem Fibonacci_le_one {n : Int} (h : n ≤ 1) : Fibonacci n = n := by
  rw [Fibonacci]; simp [h]

theorem Fibonacci_step {n : Int} (h : 2 ≤ n) :
    Fibonacci n
      = wrapInt64 (Fibonacci (wrapInt64 (n - 1)) + Fibonacci (wrapInt64 (n - 2))) := by
  rw [Fibonacci]
  have : ¬ n ≤ 1 := by omega
  simp [this]

theorem specF_add_two (k : Nat) : specF (k + 2) = specF (k + 1) + specF k := by
  rw [specF]

theorem specF_nonneg (k : Nat) : 0 ≤ specF k ∧ 0 ≤ specF (k + 1) := by
  induction k with
  | zero => simp [specF]
  | succ k ih =>
    refine ⟨ih.2, ?_⟩
    have : specF (k + 1 + 1) = specF (k + 1) + specF k := by rw [specF]
    omega

theorem specF_mono_step (k : Nat) : specF k ≤ specF (k + 1) := by
  cases k with
  | zero => simp [specF]
  | succ k =>
    have h := (specF_nonneg k).1
    have : specF (k + 1 + 1) = specF (k + 1) + specF k := by rw [specF]
    omega

theorem specF_mono {a b : Nat} (h : a ≤ b) : specF a ≤ specF b := by
  induction h with
  | refl => exact le_refl _
  | step _ ih => exact le_trans ih (specF_mono_step _)

set_option maxRecDepth 100000 in
theorem specF_92 : specF 92 = 7540113804746346429 := by decide

set_option maxRecDepth 100000 in
theorem specF_93 : specF 93 = 12200160415121876738 := by decide

/-- On the `int64` inputs `k ≥ 0`, `Fibonacci` is the reference sequence reduced
into the `int64` range. -/
theorem Fibonacci_eq_wrap_specF (k : Nat) (hk : (k : Int) ≤ maxInt64) :
    Fibonacci (k : Int) = wrapInt64 (specF k) := by
  induction k using Nat.strong_induction_on with
  | _ k ih =>
    match k, ih, hk with
    | 0, _, _ => rw [Fibonacci_le_one (by simp)]; simp [specF, wrapInt64]
    | 1, _, _ => rw [Fibonacci_le_one (by simp)]; simp [specF, wrapInt64]
    | k + 2, ih, hk =>
      unfold maxInt64 at hk
      have h1 : wrapInt64 (((k + 2 : Nat) : Int) - 1) = ((k + 1 : Nat) : Int) := by
        unfold wrapInt64; omega
      have h2 : wrapInt64 (((k + 2 : Nat) : Int) - 2) = (k : Int) := by
        unfold wrapInt64; omega
      rw [Fibonacci_step (by omega), h1, h2,
        ih (k + 1) (by omega) (by unfold maxInt64; omega),
        ih k (by omega) (by unfold maxInt64; omega), wrapInt64_add_wrap]
      rw [specF]

theorem specF_isInt64 {k : Nat} (h : k ≤ 92) : isInt64 (specF k) := by
  have h1 := specF_mono h
  have h2 := (specF_nonneg k).1
  rw [specF_92] at h1
  unfold isInt64 minInt64 maxInt64
  omega

theorem Fibonacci_eq_specF {k : Nat} (h : k ≤ 92) : Fibonacci (k : Int) = specF k := by
  rw [Fibonacci_eq_wrap_specF k (by unfold maxInt64; omega),
    wrapInt64_of_isInt64 (specF_isInt64 h)]

theorem FibonacciOv_le_one {n : Int} (h : n ≤ 1) : FibonacciOv n = (n, false) := by
  rw [FibonacciOv]; simp [h]

theorem FibonacciOv_eq {k : Nat} (h : k ≤ 92) :
    FibonacciOv (k : Int) = (specF k, false) := by
  induction k using Nat.strong_induction_on with
  | _ k ih =>
    match k, ih, h with
    | 0, _, _ => rw [FibonacciOv_le_one (by simp)]; simp [specF]
    | 1, _, _ => rw [FibonacciOv_le_one (by simp)]; simp [specF]
    | k + 2, ih, h =>
      have h1 : wrapInt64 (((k + 2 : Nat) : Int) - 1) = ((k + 1 : Nat) : Int) := by
        unfold wrapInt64; omega
      have h2 : wrapInt64 (((k + 2 : Nat) : Int) - 2) = (k : Int) := by
        unfold wrapInt64; omega
      have hs : isInt64 (specF (k + 1) + specF k) := by
        have := specF_isInt64 h
        rwa [specF] at this
      have ha : isInt64 (((k + 2 : Nat) : Int) - 1) := by
        unfold isInt64 minInt64 maxInt64; omega
      have hb : isInt64 (((k + 2 : Nat) : Int) - 2) := by
        unfold isInt64 minInt64 maxInt64; omega
      rw [FibonacciOv]
      have hn : ¬ ((k + 2 : Nat) : Int) ≤ 1 := by omega
      simp only [hn, if_false, h1, h2, ih (k + 1) (by omega) (by omega),
        ih k (by omega) (by omega)]
      rw [wrapInt64_of_isInt64 hs]
      have ha2 : isInt64 ((k : Int) + 2 - 1) := by
        unfold isInt64 minInt64 maxInt64; omega
      have hb2 : isInt64 (k : Int) := by
        unfold isInt64 minInt64 maxInt64; omega
      simp [ha, hb, ha2, hb2, hs, specF]

theorem FibonacciOv_fst (n : Int) : (FibonacciOv n).1 = Fibonacci n := by
  induction n using Fibonacci.induct with
  | case1 n h => rw [FibonacciOv_le_one h, Fibonacci_le_one h]
  | case2 n h ih1 ih2 =>
    rw [Fibonacci_step (by omega), FibonacciOv]
    simp only [h, if_false]
    rw [ih1, ih2]

theorem Fibonacci_93 : Fibonacci 93 = -6246583658587674878 := by
  have h := Fibonacci_eq_wrap_specF 93 (by decide)
  rw [specF_93] at h
  rw [show ((93 : Nat) : Int) = 93 from rfl] at h
  rw [h]
  decide

/-- C3, a defect of the code: at the `int64` input `n = 93 ≥ 2` the sum of the
two recursive results overflows and wraps, so `Fibonacci(93)` is
`-6246583658587674878` and not `F(92) + F(91) = 12200160415121876738`, against
the function's own comment ("calculates the nth Fibonacci number"). -/
theorem Fibonacci_recurrence_fails_at_93 :
    isInt64 93 ∧ (2 : Int) ≤ 93
      ∧ Fibonacci 93 ≠ specF ((93 : Int) - 1).toNat + specF ((93 : Int) - 2).toNat
      ∧ Fibonacci 93 = -6246583658587674878
      ∧ specF ((93 : Int) - 1).toNat + specF ((93 : Int) - 2).toNat = 12200160415121876738 := by
  refine ⟨by decide, by decide, ?_, Fibonacci_93, ?_⟩
  · rw [Fibonacci_93]
    have h : specF ((93 : Int) - 1).toNat + specF ((93 : Int) - 2).toNat = specF 93 := by
      rw [show ((93 : Int) - 1).toNat = 91 + 1 from rfl,
        show ((93 : Int) - 2).toNat = 91 from rfl]
      exact (specF_add_two 91).symm
    rw [h, specF_93]
    decide
  rw [show ((93 : Int) - 1).toNat = 91 + 1 from rfl, show ((93 : Int) - 2).toNat = 91 from rfl,
    ← specF_add_two 91]
  exact specF_93

/-- C9: for every `int64` `n` with `0 ≤ n ≤ 92`, `Fibonacci(n)` (a total
function, so the call returns) is the mathematical `F(n)` and no `int64`
operation in its call tree overflows; `F(92) = 7540113804746346429 ≤ 2^63 - 1`;
and at `n = 93` the `int64` result differs from `F(93)`. -/
theorem Fibonacci_exact_upto_92 (n : Int) (h0 : 0 ≤ n) (h92 : n ≤ 92) :
    Fibonacci n = specF n.toNat
      ∧ FibonacciOv n = (specF n.toNat, false)
      ∧ specF 92 = 7540113804746346429
      ∧ (7540113804746346429 : Int) ≤ 2 ^ 63 - 1
      ∧ Fibonacci 93 ≠ specF 93 := by
  obtain ⟨k, rfl⟩ : ∃ k : Nat, n = (k : Int) := ⟨n.toNat, by omega⟩
  have hk : k ≤ 92 := by omega
  rw [Int.toNat_ofNat]
  refine ⟨Fibonacci_eq_specF hk, FibonacciOv_eq hk, specF_92, by decide, ?_⟩
  rw [Fibonacci_93, specF_93]
  decide

theorem Fibonacci_exact_upto_92_witness :
    (0 : Int) ≤ 92 ∧ (92 : Int) ≤ 92
      ∧ (Fibonacci 92 = specF (92 : Int).toNat
        ∧ FibonacciOv 92 = (specF (92 : Int).toNat, false)
        ∧ specF 92 = 7540113804746346429
        ∧ (7540113804746346429 : Int) ≤ 2 ^ 63 - 1
        ∧ Fibonacci 93 ≠ specF 93) :=
  ⟨by decide, by decide, Fibonacci_exact_upto_92 92 (by decide) (by decide)⟩

/-! ## Facts about `strconv` -/

theorem formatDec_lt {u : Nat} (h : u < 10) : formatDec u = [digitChar u] := by
  rw [formatDec, if_pos h]

theorem formatDec_ge {u : Nat} (h : 10 ≤ u) :
    formatDec u = formatDec (u / 10) ++ [digitChar (u % 10)] := by
  rw [formatDec, if_neg (by omega)]

theorem digitVal_digitChar {d : Nat} (h : d < 10) : digitVal (digitChar d) = some d := by
  interval_cases d <;> decide

theorem digitChar_not_sign {d : Nat} (h : d < 10) :
    digitChar d ≠ '+' ∧ digitChar d ≠ '-' := by
  interval_cases d <;> decide

theorem parseUintLoop_digit {d n : Nat} (cs : List Char) (hd : d < 10)
    (hn : n * 10 + d ≤ maxUint64) :
    parseUintLoop (digitChar d :: cs) n = parseUintLoop cs (n * 10 + d) := by
  unfold maxUint64 at hn
  rw [parseUintLoop, digitVal_digitChar hd]
  have h1 : ¬ d ≥ 10 := by omega
  have h2 : ¬ n ≥ maxUint64 / 10 + 1 := by unfold maxUint64; omega
  have h3 : n * 10 % 18446744073709551616 = n * 10 := by omega
  have h4 : (n * 10 + d) % 18446744073709551616 = n * 10 + d := by omega
  have h5 : ¬ (n * 10 + d < n * 10 ∨ n * 10 + d > maxUint64) := by unfold maxUint64; omega
  simp only [h1, h2, h3, h4, h5, if_false]

theorem parseUintLoop_append (xs ys : List Char) (n m : Nat)
    (h : parseUintLoop xs n = (m, none)) :
    parseUintLoop (xs ++ ys) n = parseUintLoop ys m := by
  induction xs generalizing n with
  | nil =>
    rw [parseUintLoop] at h
    cases h
    rfl
  | cons c xs ih =>
    rw [List.cons_append, parseUintLoop]
    rw [parseUintLoop] at h
    cases hdv : digitVal c with
    | none => rw [hdv] at h; simp at h
    | some d =>
      rw [hdv] at h
      simp only at h ⊢
      split_ifs at h ⊢ with h1 h2 h3
      · simp at h
      · simp at h
      · simp at h
      · exact ih _ h

theorem parseUintLoop_formatDec (u : Nat) (h : u ≤ maxUint64) :
    parseUintLoop (formatDec u) 0 = (u, none) := by
  induction u using Nat.strong_induction_on with
  | _ u ih =>
    by_cases hu : u < 10
    · rw [formatDec_lt hu, parseUintLoop_digit [] hu (by omega), parseUintLoop]
      simp
    · have hq : u / 10 < u := by omega
      have hq2 : u / 10 ≤ maxUint64 := by omega
      rw [formatDec_ge (by omega),
        parseUintLoop_append _ _ 0 (u / 10) (ih (u / 10) hq hq2),
        parseUintLoop_digit [] (by omega) (by omega), parseUintLoop]
      congr 1
      omega

theorem formatDec_head (u : Nat) : ∃ d cs, d < 10 ∧ formatDec u = digitChar d :: cs := by
  induction u using Nat.strong_induction_on with
  | _ u ih =>
    by_cases hu : u < 10
    · exact ⟨u, [], hu, formatDec_lt hu⟩
    · obtain ⟨d, cs, hd, hcs⟩ := ih (u / 10) (by omega)
      exact ⟨d, cs ++ [digitChar (u % 10)], hd, by rw [formatDec_ge (by omega), hcs]; rfl⟩

theorem ParseUint_formatDec (u : Nat) (h : u ≤ maxUint64) :
    ParseUint (formatDec u) = (u, none) := by
  obtain ⟨d, cs, _, hcs⟩ := formatDec_head u
  unfold ParseUint
  rw [if_neg (by rw [hcs]; simp), parseUintLoop_formatDec u h]

theorem parseIntBody_formatDec (neg : Bool) (u : Nat)
    (h : if neg then u ≤ 9223372036854775808 else u < 9223372036854775808) :
    parseIntBody neg (formatDec u) = (if neg then -(u : Int) else (u : Int), none) := by
  have hu : u ≤ maxUint64 := by
    unfold maxUint64
    cases neg <;> simp at h <;> omega
  unfold parseIntBody
  rw [ParseUint_formatDec u hu]
  cases neg with
  | false =>
    simp only [Bool.false_eq_true, if_false] at h
    have h1 : ¬ ((false = false) ∧ u ≥ 9223372036854775808) := by omega
    simp only [h1, if_false, Bool.false_eq_true, false_and]
    have h2 : wrapInt64 (u : Int) = u := by unfold wrapInt64; omega
    simp [h2, h]
  | true =>
    simp only [if_true] at h
    have h1 : ¬ ((true = true) ∧ u > 9223372036854775808) := by omega
    simp only [h1, if_false, Bool.true_eq_false, false_and]
    have h2 : wrapInt64 (-wrapInt64 (u : Int)) = -(u : Int) := by unfold wrapInt64; omega
    simp [h2, h]

/-- Parsing the decimal form of an `int64` gives it back, without error. -/
theorem ParseInt_FormatInt (v : Int) (h : isInt64 v) : ParseInt (FormatInt v) = (v, none) := by
  unfold isInt64 minInt64 maxInt64 at h
  unfold FormatInt
  by_cases hv : v < 0
  · rw [if_pos hv]
    unfold ParseInt
    simp only [decide_True, or_true, if_true]
    rw [parseIntBody_formatDec true _ (by simp only [if_true]; omega)]
    simp only [if_true]
    congr 1
    omega
  · rw [if_neg hv]
    obtain ⟨d, cs, hd, hcs⟩ := formatDec_head (v % 18446744073709551616).toNat
    unfold ParseInt
    simp only [hcs]
    have hs := digitChar_not_sign hd
    simp only [hs.1, hs.2, or_self, if_false, decide_False]
    rw [← hcs, parseIntBody_formatDec false _ (by simp only [Bool.false_eq_true, if_false]; omega)]
    simp only [Bool.false_eq_true, if_false]
    congr 1
    omega

theorem parseIntBody_isInt64 (neg : Bool) (body : List Char) :
    isInt64 (parseIntBody neg body).1 := by
  unfold parseIntBody
  dsimp only
  split_ifs
  all_goals first
    | exact wrapInt64_isInt64 _
    | (unfold isInt64 minInt64 maxInt64; omega)

theorem ParseInt_isInt64 (s : String) : isInt64 (ParseInt s).1 := by
  unfold ParseInt
  cases s.data with
  | nil => unfold isInt64 minInt64 maxInt64; simp
  | cons c cs => exact parseIntBody_isInt64 _ _

theorem Fibonacci_isInt64 {n : Int} (h : isInt64 n) : isInt64 (Fibonacci n) := by
  by_cases h1 : n ≤ 1
  · rw [Fibonacci_le_one h1]; exact h
  · rw [Fibonacci_step (by omega)]; exact wrapInt64_isInt64 _

/-! ## Facts about the handler -/

theorem worker_miss {σ : Type} (c : Cache σ) (exp : Int) (ctx : Context) (param : String)
    (n : Int) (s : σ) (e : GoError) (hg : (c.Get s ctx param).2.2 = some e) :
    (worker c exp ctx param n s).2.2 = Fibonacci n
      ∧ (worker c exp ctx param n s).1
          = (c.Set (c.Get s ctx param).1 ctx param (FormatInt (Fibonacci n)) exp).1
      ∧ ∃ tail, (worker c exp ctx param n s).2.1
          = [Event.cacheGet param, Event.log "DEBUG" "cache miss; calculating the fib(n)",
             Event.fibonacci n, Event.log "DEBUG" "fib(n) calculated",
             Event.cacheSet param (FormatInt (Fibonacci n)) exp] ++ tail
            ∧ (tail = [] ∨ tail = [Event.log "ERROR" "cannot set cache"]) := by
  unfold worker
  rcases hget : c.Get s ctx param with ⟨s1, cached, err⟩
  rw [hget] at hg
  simp only at hg
  subst hg
  simp only
  rcases hset : c.Set s1 ctx param (FormatInt (Fibonacci n)) exp with ⟨s2, err2⟩
  cases err2 with
  | none => exact ⟨rfl, rfl, [], rfl, Or.inl rfl⟩
  | some e2 => exact ⟨rfl, rfl, _, rfl, Or.inr rfl⟩

theorem worker_hit {σ : Type} (c : Cache σ) (exp : Int) (ctx : Context) (param : String)
    (n : Int) (s : σ) (hg : (c.Get s ctx param).2.2 = none) :
    worker c exp ctx param n s
      = ((c.Get s ctx param).1,
          [Event.cacheGet param, Event.log "DEBUG" "cache hit; returning the cached value"],
          (ParseInt (c.Get s ctx param).2.1).1) := by
  unfold worker
  rcases hget : c.Get s ctx param with ⟨s1, cached, err⟩
  rw [hget] at hg
  simp only at hg
  subst hg
  rfl

theorem NewHandler_accepted {σ : Type} (l : Logger) (c : Cache σ) (exp : Int) (ctx : Context)
    (param : String) (n : Int) (s : σ) (hp : ParseInt param = (n, none)) :
    NewHandler l c exp ctx SelectCase.result param s
      = ((worker c exp ctx param n s).1,
          (worker c exp ctx param n s).2.1 ++ [Event.log "INFO" "request completed"],
          some (sendJSON [("result", JSONValue.int (worker c exp ctx param n s).2.2)] 200)) := by
  unfold NewHandler
  rw [hp]

theorem parseIntBody_syntax_value (neg : Bool) (body : List Char)
    (h : (parseIntBody neg body).2 = some NumError.ErrSyntax) : (parseIntBody neg body).1 = 0 := by
  unfold parseIntBody at h ⊢
  dsimp only at h ⊢
  by_cases h1 : (ParseUint body).2 = some NumError.ErrSyntax
  · rw [if_pos h1]
  · rw [if_neg h1] at h
    exfalso
    split_ifs at h <;> simp at h

theorem ParseInt_syntax_value (s : String) (h : (ParseInt s).2 = some NumError.ErrSyntax) :
    (ParseInt s).1 = 0 := by
  unfold ParseInt at h ⊢
  cases hd : s.data with
  | nil => simp [hd]
  | cons c cs =>
    rw [hd] at h
    exact parseIntBody_syntax_value _ _ h

/-! ## Facts about the run on a bounded stack -/

theorem FibonacciRun_fit (depth : Nat) (n : Int) (hn : n ≤ maxInt64) (h1 : 1 ≤ depth)
    (hfit : n ≤ (depth : Int)) : FibonacciRun depth n = some (Fibonacci n) := by
  induction depth generalizing n with
  | zero => omega
  | succ d ih =>
    rw [FibonacciRun]
    by_cases hle : n ≤ 1
    · rw [if_pos hle, Fibonacci_le_one hle]
    · unfold maxInt64 at hn
      have e1 : wrapInt64 (n - 1) = n - 1 := by unfold wrapInt64; omega
      have e2 : wrapInt64 (n - 2) = n - 2 := by unfold wrapInt64; omega
      have hd : 1 ≤ d := by omega
      rw [if_neg hle, ih (wrapInt64 (n - 1)) (by rw [e1]; unfold maxInt64; omega) hd
            (by rw [e1]; omega),
        ih (wrapInt64 (n - 2)) (by rw [e2]; unfold maxInt64; omega) hd (by rw [e2]; omega)]
      have h2 : 2 ≤ n := by omega
      rw [Fibonacci_step h2]

theorem FibonacciRun_overflow (depth : Nat) (n : Int) (hn : n ≤ maxInt64)
    (h : (depth : Int) < n ∨ depth = 0) : FibonacciRun depth n = none := by
  induction depth generalizing n with
  | zero => rw [FibonacciRun]
  | succ d ih =>
    unfold maxInt64 at hn
    have hlt : ((d + 1 : Nat) : Int) < n := by omega
    have hle : ¬ n ≤ 1 := by omega
    have e1 : wrapInt64 (n - 1) = n - 1 := by unfold wrapInt64; omega
    rw [FibonacciRun, if_neg hle,
      ih (wrapInt64 (n - 1)) (by rw [e1]; unfold maxInt64; omega) (by rw [e1]; omega)]

theorem workerRun_of_returns {σ : Type} (depth : Nat) (c : Cache σ) (exp : Int)
    (ctx : Context) (param : String) (n : Int) (s : σ)
    (hF : FibonacciRun depth n = some (Fibonacci n)) :
    workerRun depth c exp ctx param n s = some (worker c exp ctx param n s) := by
  unfold workerRun worker
  rcases c.Get s ctx param with ⟨s1, cached, err⟩
  cases err with
  | none => rfl
  | some e =>
    simp only [hF]
    rcases c.Set s1 ctx param (FormatInt (Fibonacci n)) exp with ⟨s2, err2⟩
    cases err2 <;> rfl

theorem workerRun_of_overflow {σ : Type} (depth : Nat) (c : Cache σ) (exp : Int)
    (ctx : Context) (param : String) (n : Int) (s : σ) (e : GoError)
    (hg : (c.Get s ctx param).2.2 = some e) (hF : FibonacciRun depth n = none) :
    workerRun depth c exp ctx param n s = none := by
  unfold workerRun
  rcases hget : c.Get s ctx param with ⟨s1, cached, err⟩
  rw [hget] at hg
  simp only at hg
  subst hg
  simp only [hF]

theorem NewHandlerRun_of_returns {σ : Type} (depth : Nat) (l : Logger) (c : Cache σ)
    (exp : Int) (ctx : Context) (sel : SelectCase) (param : String) (n : Int) (s : σ)
    (hp : ParseInt param = (n, none)) (hF : FibonacciRun depth n = some (Fibonacci n)) :
    NewHandlerRun depth l c exp ctx sel param s = some (NewHandler l c exp ctx sel param s) := by
  unfold NewHandlerRun NewHandler
  rw [hp]
  simp only [workerRun_of_returns depth c exp ctx param n s hF]
  rcases worker c exp ctx param n s with ⟨s1, evs, v⟩
  cases sel <;> rfl

theorem NewHandlerRun_of_overflow {σ : Type} (depth : Nat) (l : Logger) (c : Cache σ)
    (exp : Int) (ctx : Context) (sel : SelectCase) (param : String) (n : Int) (s : σ)
    (e : GoError) (hp : ParseInt param = (n, none))
    (hg : (c.Get s ctx param).2.2 = some e) (hF : FibonacciRun depth n = none) :
    NewHandlerRun depth l c exp ctx sel param s = none := by
  unfold NewHandlerRun
  rw [hp]
  simp only [workerRun_of_overflow depth c exp ctx param n s e hg hF]

theorem Fibonacci_10 : Fibonacci 10 = 55 := by
  have h := Fibonacci_eq_specF (show 10 ≤ 92 by decide)
  rw [show ((10 : Nat) : Int) = 10 from rfl] at h
  rw [h]; decide

theorem Fibonacci_20 : Fibonacci 20 = 6765 := by
  have h := Fibonacci_eq_specF (show 20 ≤ 92 by decide)
  rw [show ((20 : Nat) : Int) = 20 from rfl] at h
  rw [h]; decide

theorem FormatInt_55 : FormatInt 55 = "55" := by
  unfold FormatInt
  rw [if_neg (by decide), show ((55 : Int) % 18446744073709551616).toNat = 55 from by decide,
    formatDec_ge (by decide), formatDec_lt (by decide)]
  decide

/-! ## The claims about the handler, the null backend and the loader -/

/-- C1 (as stated) fails: `GET /fib/1000000000` is accepted and the null
backend's `Get` fails, but no answer is written.  The recursion of `Fibonacci`
is a thousand million frames deep, and a goroutine stack, limited to
1000000000 bytes with at least the 8-byte return address in every frame, has
room for fewer than 125000000 of them: the process ends in a stack overflow. -/
theorem NewHandlerRun_deep_recursion_no_answer :
    ParseInt "1000000000" = (1000000000, none)
      ∧ (NopCache.Get () { done := false } "1000000000").2.2
          = some (GoError.cache ErrNotFound)
      ∧ NewHandlerRun 125000000 { level := 0 } NopCache 15 { done := false }
          SelectCase.result "1000000000" () = none :=
  ⟨by decide, by decide,
    NewHandlerRun_of_overflow 125000000 { level := 0 } NopCache 15 { done := false }
      SelectCase.result "1000000000" 1000000000 () (GoError.cache ErrNotFound) (by decide)
      (by decide) (FibonacciRun_overflow 125000000 1000000000 (by decide) (Or.inl (by decide)))⟩

/-- C1 (amended): for a path parameter that parses to an `int64` `n` whose
recursion fits the goroutine stack (`max(n, 1)` nested frames), and a cache
whose `Get` returns an error (of any kind), the request whose `select` receives
the result answers status 200 with result `Fibonacci(n)`; a second cache
failing with another error, and whatever either `Set` returns, gives the same
response. -/
theorem NewHandlerRun_miss_response {σ τ : Type} (depth : Nat) (l : Logger) (c : Cache σ)
    (c2 : Cache τ) (exp : Int) (ctx : Context) (param : String) (n : Int) (s : σ) (s2 : τ)
    (e e2 : GoError)
    (hp : ParseInt param = (n, none))
    (hg : (c.Get s ctx param).2.2 = some e)
    (hg2 : (c2.Get s2 ctx param).2.2 = some e2)
    (h1 : 1 ≤ depth) (hfit : n ≤ (depth : Int)) :
    Option.map (fun r => r.2.2) (NewHandlerRun depth l c exp ctx SelectCase.result param s)
        = some (some { contentType := "application/json", code := 200,
                       body := [("result", JSONValue.int (Fibonacci n))] })
      ∧ Option.map (fun r => r.2.2)
          (NewHandlerRun depth l c2 exp ctx SelectCase.result param s2)
        = some (some { contentType := "application/json", code := 200,
                       body := [("result", JSONValue.int (Fibonacci n))] }) := by
  have hn : n ≤ maxInt64 := by
    have := (ParseInt_isInt64 param).2
    rwa [hp] at this
  have hF := FibonacciRun_fit depth n hn h1 hfit
  rw [NewHandlerRun_of_returns depth l c exp ctx _ param n s hp hF,
    NewHandlerRun_of_returns depth l c2 exp ctx _ param n s2 hp hF,
    NewHandler_accepted l c exp ctx param n s hp, NewHandler_accepted l c2 exp ctx param n s2 hp]
  simp only [Option.map_some']
  rw [(worker_miss c exp ctx param n s e hg).1, (worker_miss c2 exp ctx param n s2 e2 hg2).1]
  exact ⟨rfl, rfl⟩

theorem NewHandlerRun_miss_response_witness :
    ParseInt "10" = (10, none)
      ∧ (NopCache.Get () { done := false } "10").2.2 = some (GoError.cache ErrNotFound)
      ∧ (storeCache.Get { now := 5, entries := [("10", "55", 3)] } { done := false } "10").2.2
          = some (GoError.cache ErrExpired)
      ∧ 1 ≤ 100 ∧ (10 : Int) ≤ ((100 : Nat) : Int)
      ∧ (Option.map (fun r => r.2.2)
            (NewHandlerRun 100 { level := 0 } NopCache 15 { done := false }
              SelectCase.result "10" ())
          = some (some { contentType := "application/json", code := 200,
                         body := [("result", JSONValue.int (Fibonacci 10))] })
        ∧ Option.map (fun r => r.2.2)
            (NewHandlerRun 100 { level := 0 } storeCache 15 { done := false }
              SelectCase.result "10" { now := 5, entries := [("10", "55", 3)] })
          = some (some { contentType := "application/json", code := 200,
                         body := [("result", JSONValue.int (Fibonacci 10))] })) :=
  ⟨by decide, by decide, by decide, by decide, by decide,
    NewHandlerRun_miss_response 100 { level := 0 } NopCache storeCache 15 { done := false }
      "10" 10 () { now := 5, entries := [("10", "55", 3)] } (GoError.cache ErrNotFound)
      (GoError.cache ErrExpired) (by decide) (by decide) (by decide) (by decide) (by decide)⟩

/-- C4: for every path parameter that `strconv.ParseInt(param, 10, 64)` rejects
(with a syntax or a range error), the handler writes status 400 with the JSON
body `{"error":"invalid value"}`; it leaves the cache state as it was and
performs no cache `Get`, no cache `Set` and no `Fibonacci` call. -/
theorem NewHandler_invalid_param {σ : Type} (l : Logger) (c : Cache σ) (exp : Int)
    (ctx : Context) (sel : SelectCase) (param : String) (s : σ)
    (hp : (ParseInt param).2 ≠ none) :
    NewHandler l c exp ctx sel param s
      = (s, [Event.log "ERROR" "cannot parse path value", Event.log "INFO" "request completed"],
          some { contentType := "application/json", code := 400,
                 body := [("error", JSONValue.str "invalid value")] }) := by
  unfold NewHandler
  rcases hr : ParseInt param with ⟨v, err⟩
  rw [hr] at hp
  cases err with
  | none => exact absurd rfl hp
  | some e => rfl

theorem NewHandler_invalid_param_witness :
    (ParseInt "abc").2 ≠ none
      ∧ NewHandler { level := 0 } NopCache 15 { done := false } SelectCase.result "abc" ()
        = ((), [Event.log "ERROR" "cannot parse path value",
                Event.log "INFO" "request completed"],
            some { contentType := "application/json", code := 400,
                   body := [("error", JSONValue.str "invalid value")] }) :=
  ⟨by decide,
    NewHandler_invalid_param { level := 0 } NopCache 15 { done := false } SelectCase.result
      "abc" () (by decide)⟩

/-- The three kinds of rejected parameter named with C4 are rejected. -/
theorem ParseInt_rejects_examples :
    ParseInt "abc" = (0, some NumError.ErrSyntax)
      ∧ ParseInt "" = (0, some NumError.ErrSyntax)
      ∧ ParseInt "9223372036854775808" = (9223372036854775807, some NumError.ErrRange)
      ∧ ParseInt "-9223372036854775809" = (-9223372036854775808, some NumError.ErrRange) := by
  decide

/-- C6: `NopCache.Set` returns `nil` for every context, key, value and TTL;
`NopCache.Get` returns `("", ErrNotFound)` for every key, also for the key just
passed to `Set`; and with `NopCache` the goroutine of every request takes the
miss path (it computes `Fibonacci(n)`). -/
theorem NopCache_contract (s : nopCache) (ctx ctx2 : Context) (key val key2 : String)
    (exp : Int) (param : String) (n : Int) :
    (NopCache.Set s ctx key val exp).2 = none
      ∧ (NopCache.Get s ctx2 key2).2 = ("", some (GoError.cache ErrNotFound))
      ∧ (NopCache.Get (NopCache.Set s ctx key val exp).1 ctx2 key).2
          = ("", some (GoError.cache ErrNotFound))
      ∧ worker NopCache exp ctx param n s
          = (s, [Event.cacheGet param, Event.log "DEBUG" "cache miss; calculating the fib(n)",
                 Event.fibonacci n, Event.log "DEBUG" "fib(n) calculated",
                 Event.cacheSet param (FormatInt (Fibonacci n)) exp], Fibonacci n) :=
  ⟨rfl, rfl, rfl, rfl⟩

/-- C7: for every logger and factory symbol name, `loadCachePlugin` with the
empty path returns `(cache.NopCache, nil)` and its only action is the log line:
no `plugin.Open`, no symbol lookup, no factory call. -/
theorem loadCachePlugin_empty_path {P S C : Type} (sys : PluginSystem P S C) (log : Logger)
    (name : String) :
    loadCachePlugin sys log "" name
      = (some CacheValue.NopCache, none,
          [LoadEvent.logInfo "no cache plugin configured; using nop cache"]) := by
  unfold loadCachePlugin
  simp

theorem NewHandler_events {σ : Type} (l : Logger) (c : Cache σ) (exp : Int) (ctx : Context)
    (sel : SelectCase) (param : String) (n : Int) (s : σ) (hp : ParseInt param = (n, none)) :
    ∃ tail, (NewHandler l c exp ctx sel param s).2.1 = (worker c exp ctx param n s).2.1 ++ tail
      ∧ ∀ ev ∈ tail, ∃ lvl msg, ev = Event.log lvl msg := by
  unfold NewHandler
  rw [hp]
  cases sel with
  | result =>
    refine ⟨[Event.log "INFO" "request completed"], rfl, ?_⟩
    intro ev hev
    simp only [List.mem_singleton] at hev
    exact ⟨_, _, hev⟩
  | ctxDone =>
    refine ⟨[Event.log "INFO" "request cancelled", Event.log "INFO" "request completed"],
      rfl, ?_⟩
    intro ev hev
    simp only [List.mem_cons, List.mem_singleton, List.not_mem_nil, or_false] at hev
    rcases hev with h | h
    · exact ⟨_, _, h⟩
    · exact ⟨_, _, h⟩

theorem worker_events_keys {σ : Type} (c : Cache σ) (exp : Int) (ctx : Context)
    (param : String) (n : Int) (s : σ) :
    Event.cacheGet param ∈ (worker c exp ctx param n s).2.1
      ∧ (∀ k, Event.cacheGet k ∈ (worker c exp ctx param n s).2.1 → k = param)
      ∧ (∀ k v e, Event.cacheSet k v e ∈ (worker c exp ctx param n s).2.1
          → k = param ∧ v = FormatInt (Fibonacci n) ∧ e = exp)
      ∧ ((c.Get s ctx param).2.2 ≠ none
          → Event.cacheSet param (FormatInt (Fibonacci n)) exp
              ∈ (worker c exp ctx param n s).2.1) := by
  cases hg : (c.Get s ctx param).2.2 with
  | none =>
    rw [worker_hit c exp ctx param n s hg]
    simp
  | some e =>
    obtain ⟨_, _, tail, htail, hcases⟩ := worker_miss c exp ctx param n s e hg
    rw [htail]
    rcases hcases with h | h <;> subst h <;> simp

/-- C5 (as stated) fails: the parameters `"+5"` and `"5"` both denote 5, but
the request for `"+5"` passes the key `"+5"` to `Get` and to `Set`, not the
decimal form `"5"` of 5 that the request for `"5"` uses. -/
theorem cache_key_not_decimal_form :
    ParseInt "+5" = (5, none) ∧ ParseInt "5" = (5, none) ∧ FormatInt 5 = "5"
      ∧ (NewHandler { level := 0 } NopCache 15 { done := false } SelectCase.result "+5" ()).2.1
          = [Event.cacheGet "+5", Event.log "DEBUG" "cache miss; calculating the fib(n)",
             Event.fibonacci 5, Event.log "DEBUG" "fib(n) calculated",
             Event.cacheSet "+5" (FormatInt (Fibonacci 5)) 15,
             Event.log "INFO" "request completed"]
      ∧ (NewHandler { level := 0 } NopCache 15 { done := false } SelectCase.result "5" ()).2.1
          = [Event.cacheGet "5", Event.log "DEBUG" "cache miss; calculating the fib(n)",
             Event.fibonacci 5, Event.log "DEBUG" "fib(n) calculated",
             Event.cacheSet "5" (FormatInt (Fibonacci 5)) 15,
             Event.log "INFO" "request completed"]
      ∧ "+5" ≠ FormatInt 5 := by
  have hf : FormatInt 5 = "5" := by
    unfold FormatInt
    rw [if_neg (by decide), show ((5 : Int) % 18446744073709551616).toNat = 5 from by decide,
      formatDec_lt (by decide)]
    decide
  refine ⟨by decide, by decide, hf, ?_, ?_, ?_⟩
  · rw [NewHandler_accepted _ _ _ _ _ 5 _ (by decide)]
    rfl
  · rw [NewHandler_accepted _ _ _ _ _ 5 _ (by decide)]
    rfl
  · rw [hf]
    decide

/-- C5 (amended): for every accepted path parameter, parsing to `n`, the key
passed to the cache's `Get` and to its `Set` is the parameter string itself, as
received (and the value set is the decimal form of `Fibonacci(n)`). -/
theorem NewHandler_cache_key {σ : Type} (l : Logger) (c : Cache σ) (exp : Int)
    (ctx : Context) (sel : SelectCase) (param : String) (n : Int) (s : σ)
    (hp : ParseInt param = (n, none)) :
    Event.cacheGet param ∈ (NewHandler l c exp ctx sel param s).2.1
      ∧ (∀ k, Event.cacheGet k ∈ (NewHandler l c exp ctx sel param s).2.1 → k = param)
      ∧ (∀ k v e, Event.cacheSet k v e ∈ (NewHandler l c exp ctx sel param s).2.1
          → k = param ∧ v = FormatInt (Fibonacci n) ∧ e = exp)
      ∧ ((c.Get s ctx param).2.2 ≠ none
          → Event.cacheSet param (FormatInt (Fibonacci n)) exp
              ∈ (NewHandler l c exp ctx sel param s).2.1) := by
  obtain ⟨tail, hev, htail⟩ := NewHandler_events l c exp ctx sel param n s hp
  obtain ⟨h1, h2, h3, h4⟩ := worker_events_keys c exp ctx param n s
  rw [hev]
  refine ⟨List.mem_append_left _ h1, ?_, ?_, fun h => List.mem_append_left _ (h4 h)⟩
  · intro k hk
    rcases List.mem_append.mp hk with h | h
    · exact h2 k h
    · obtain ⟨lvl, msg, hlm⟩ := htail _ h
      cases hlm
  · intro k v e hk
    rcases List.mem_append.mp hk with h | h
    · exact h3 k v e h
    · obtain ⟨lvl, msg, hlm⟩ := htail _ h
      cases hlm

theorem NewHandler_cache_key_witness :
    ParseInt "+5" = (5, none)
      ∧ (Event.cacheGet "+5"
            ∈ (NewHandler { level := 0 } NopCache 15 { done := false } SelectCase.result
                "+5" ()).2.1
        ∧ (∀ k, Event.cacheGet k
              ∈ (NewHandler { level := 0 } NopCache 15 { done := false } SelectCase.result
                  "+5" ()).2.1 → k = "+5")
        ∧ (∀ k v e, Event.cacheSet k v e
              ∈ (NewHandler { level := 0 } NopCache 15 { done := false } SelectCase.result
                  "+5" ()).2.1 → k = "+5" ∧ v = FormatInt (Fibonacci 5) ∧ e = 15)
        ∧ ((NopCache.Get () { done := false } "+5").2.2 ≠ none
            → Event.cacheSet "+5" (FormatInt (Fibonacci 5)) 15
                ∈ (NewHandler { level := 0 } NopCache 15 { done := false } SelectCase.result
                    "+5" ()).2.1)) :=
  ⟨by decide,
    NewHandler_cache_key { level := 0 } NopCache 15 { done := false } SelectCase.result "+5" 5 ()
      (by decide)⟩

/-- C10 (as stated) fails: `"99999999999999999999x"` is not a syntactically
valid base-10 integer, yet `ParseInt` reports it as a range error (its digits
overflow before the `x` is read) with value `1<<63 - 1`, and the handler
answers with that value, not with 0. -/
theorem NewHandler_hit_malformed_not_zero :
    isDecimalSyntax "99999999999999999999x" = false
      ∧ ParseInt "5" = (5, none)
      ∧ (storeCache.Get { now := 0, entries := [("5", "99999999999999999999x", 100)] }
            { done := false } "5").2
          = ("99999999999999999999x", none)
      ∧ ParseInt "99999999999999999999x" = (9223372036854775807, some NumError.ErrRange)
      ∧ (NewHandler { level := 0 } storeCache 15 { done := false } SelectCase.result "5"
            { now := 0, entries := [("5", "99999999999999999999x", 100)] }).2.2
          = some { contentType := "application/json", code := 200,
                   body := [("result", JSONValue.int 9223372036854775807)] } := by
  refine ⟨by decide, by decide, by decide, by decide, ?_⟩
  rw [NewHandler_accepted _ _ _ _ _ 5 _ (by decide), worker_hit _ _ _ _ _ _ (by decide)]
  decide

/-- C10 (amended): for a parseable `n` and a cache whose `Get` succeeds with a
stored string that `strconv.ParseInt` rejects with a syntax error (such as
`"abc"` or `""`), the handler discards the parse error and answers status 200
with result 0, with no `Fibonacci` call and no `Set`. -/
theorem NewHandler_hit_syntax_error {σ : Type} (l : Logger) (c : Cache σ) (exp : Int)
    (ctx : Context) (param : String) (n : Int) (s : σ)
    (hp : ParseInt param = (n, none))
    (hg : (c.Get s ctx param).2.2 = none)
    (hs : (ParseInt (c.Get s ctx param).2.1).2 = some NumError.ErrSyntax) :
    NewHandler l c exp ctx SelectCase.result param s
      = ((c.Get s ctx param).1,
          [Event.cacheGet param, Event.log "DEBUG" "cache hit; returning the cached value",
           Event.log "INFO" "request completed"],
          some { contentType := "application/json", code := 200,
                 body := [("result", JSONValue.int 0)] }) := by
  rw [NewHandler_accepted l c exp ctx param n s hp, worker_hit c exp ctx param n s hg,
    ParseInt_syntax_value _ hs]
  rfl

theorem NewHandler_hit_syntax_error_witness :
    ParseInt "5" = (5, none)
      ∧ (storeCache.Get { now := 0, entries := [("5", "abc", 100)] } { done := false } "5").2.2
          = none
      ∧ (ParseInt (storeCache.Get { now := 0, entries := [("5", "abc", 100)] }
            { done := false } "5").2.1).2 = some NumError.ErrSyntax
      ∧ NewHandler { level := 0 } storeCache 15 { done := false } SelectCase.result "5"
            { now := 0, entries := [("5", "abc", 100)] }
          = ((storeCache.Get { now := 0, entries := [("5", "abc", 100)] }
                { done := false } "5").1,
              [Event.cacheGet "5", Event.log "DEBUG" "cache hit; returning the cached value",
               Event.log "INFO" "request completed"],
              some { contentType := "application/json", code := 200,
                     body := [("result", JSONValue.int 0)] }) :=
  ⟨by decide, by decide, by decide,
    NewHandler_hit_syntax_error { level := 0 } storeCache 15 { done := false } "5" 5
      { now := 0, entries := [("5", "abc", 100)] } (by decide) (by decide) (by decide)⟩

/-- The two stored strings named with C10 are syntax errors with value 0. -/
theorem ParseInt_syntax_examples :
    ParseInt "abc" = (0, some NumError.ErrSyntax) ∧ ParseInt "" = (0, some NumError.ErrSyntax)
      ∧ isDecimalSyntax "abc" = false ∧ isDecimalSyntax "" = false := by
  decide

/-- C2 (as stated) fails: `"10"` and `"+10"` are two requests for the same
`n = 10`, but after the request for `"10"` has stored `"55"` under the key
`"10"`, the request for `"+10"` looks up the key `"+10"`, misses, and calls
`Fibonacci` and `Set` again: the second request is not a hit. -/
theorem second_request_other_spelling_misses :
    ParseInt "10" = (10, none) ∧ ParseInt "+10" = (10, none)
      ∧ NewHandlerRun 100 { level := 0 } storeCache 15 { done := false } SelectCase.result "10"
            (Store.empty 0)
          = some ({ now := 0, entries := [("10", "55", 15)] },
              [Event.cacheGet "10", Event.log "DEBUG" "cache miss; calculating the fib(n)",
               Event.fibonacci 10, Event.log "DEBUG" "fib(n) calculated",
               Event.cacheSet "10" "55" 15, Event.log "INFO" "request completed"],
              some { contentType := "application/json", code := 200,
                     body := [("result", JSONValue.int 55)] })
      ∧ NewHandlerRun 100 { level := 0 } storeCache 15 { done := false } SelectCase.result "+10"
            (Store.tick { now := 0, entries := [("10", "55", 15)] } 5)
          = some ({ now := 5, entries := [("+10", "55", 20), ("10", "55", 15)] },
              [Event.cacheGet "+10", Event.log "DEBUG" "cache miss; calculating the fib(n)",
               Event.fibonacci 10, Event.log "DEBUG" "fib(n) calculated",
               Event.cacheSet "+10" "55" 15, Event.log "INFO" "request completed"],
              some { contentType := "application/json", code := 200,
                     body := [("result", JSONValue.int 55)] }) := by
  have hF : FibonacciRun 100 10 = some (Fibonacci 10) :=
    FibonacciRun_fit 100 10 (by decide) (by decide) (by decide)
  refine ⟨by decide, by decide, ?_, ?_⟩
  · rw [NewHandlerRun_of_returns 100 _ _ _ _ _ _ 10 _ (by decide) hF,
      NewHandler_accepted _ _ _ _ _ 10 _ (by decide)]
    have hw : worker storeCache 15 { done := false } "10" 10 (Store.empty 0)
        = ({ now := 0, entries := [("10", FormatInt (Fibonacci 10), 0 + 15)] },
            [Event.cacheGet "10", Event.log "DEBUG" "cache miss; calculating the fib(n)",
             Event.fibonacci 10, Event.log "DEBUG" "fib(n) calculated",
             Event.cacheSet "10" (FormatInt (Fibonacci 10)) 15], Fibonacci 10) := rfl
    rw [hw, Fibonacci_10, FormatInt_55]
    rfl
  · rw [NewHandlerRun_of_returns 100 _ _ _ _ _ _ 10 _ (by decide) hF,
      NewHandler_accepted _ _ _ _ _ 10 _ (by decide)]
    have hg : (storeCache.Get (Store.tick { now := 0, entries := [("10", "55", 15)] } 5)
        { done := false } "+10").2.2 = some (GoError.cache ErrNotFound) := by decide
    have hw : worker storeCache 15 { done := false } "+10" 10
          (Store.tick { now := 0, entries := [("10", "55", 15)] } 5)
        = ({ now := 0 + 5,
             entries := [("+10", FormatInt (Fibonacci 10), 0 + 5 + 15), ("10", "55", 15)] },
            [Event.cacheGet "+10", Event.log "DEBUG" "cache miss; calculating the fib(n)",
             Event.fibonacci 10, Event.log "DEBUG" "fib(n) calculated",
             Event.cacheSet "+10" (FormatInt (Fibonacci 10)) 15], Fibonacci 10) := by
      unfold worker
      rfl
    rw [hw, Fibonacci_10, FormatInt_55]
    rfl

/-- C2 (amended): with the store backend, empty at first, and an `int64` `n`
whose recursion fits the goroutine stack, two successive uncancelled requests
with the same path parameter string denoting `n`, the second less than the TTL
after the first, return the same result: the first is a miss that computes
`Fibonacci(n)` and stores its decimal string under the parameter, the second is
a hit that emits the parsed stored value with no `Fibonacci` call and no `Set`;
parsing the stored decimal string gives the stored value back, and the decimal
form of `n` is itself an accepted parameter denoting `n`. -/
theorem NewHandlerRun_idempotent (depth : Nat) (l : Logger) (exp d t : Int)
    (ctx1 ctx2 : Context) (param : String) (n : Int) (hp : ParseInt param = (n, none))
    (hd : d < exp) (h1 : 1 ≤ depth) (hfit : n ≤ (depth : Int)) :
    NewHandlerRun depth l storeCache exp ctx1 SelectCase.result param (Store.empty t)
        = some ({ now := t, entries := [(param, FormatInt (Fibonacci n), t + exp)] },
            [Event.cacheGet param, Event.log "DEBUG" "cache miss; calculating the fib(n)",
             Event.fibonacci n, Event.log "DEBUG" "fib(n) calculated",
             Event.cacheSet param (FormatInt (Fibonacci n)) exp,
             Event.log "INFO" "request completed"],
            some { contentType := "application/json", code := 200,
                   body := [("result", JSONValue.int (Fibonacci n))] })
      ∧ NewHandlerRun depth l storeCache exp ctx2 SelectCase.result param
          (Store.tick { now := t, entries := [(param, FormatInt (Fibonacci n), t + exp)] } d)
        = some ({ now := t + d, entries := [(param, FormatInt (Fibonacci n), t + exp)] },
            [Event.cacheGet param, Event.log "DEBUG" "cache hit; returning the cached value",
             Event.log "INFO" "request completed"],
            some { contentType := "application/json", code := 200,
                   body := [("result", JSONValue.int (Fibonacci n))] })
      ∧ ParseInt (FormatInt (Fibonacci n)) = (Fibonacci n, none)
      ∧ ParseInt (FormatInt n) = (n, none) := by
  have hn : isInt64 n := by
    have := ParseInt_isInt64 param
    rwa [hp] at this
  have hF := FibonacciRun_fit depth n hn.2 h1 hfit
  have hrt := ParseInt_FormatInt (Fibonacci n) (Fibonacci_isInt64 hn)
  refine ⟨?_, ?_, hrt, ParseInt_FormatInt n hn⟩
  · rw [NewHandlerRun_of_returns depth l storeCache exp ctx1 _ param n _ hp hF,
      NewHandler_accepted l storeCache exp ctx1 param n _ hp]
    rfl
  · rw [NewHandlerRun_of_returns depth l storeCache exp ctx2 _ param n _ hp hF,
      NewHandler_accepted l storeCache exp ctx2 param n _ hp]
    have hlt : t + d < t + exp := by omega
    have hget : storeCache.Get
        (Store.tick { now := t, entries := [(param, FormatInt (Fibonacci n), t + exp)] } d)
        ctx2 param
        = ({ now := t + d, entries := [(param, FormatInt (Fibonacci n), t + exp)] },
            FormatInt (Fibonacci n), none) := by
      simp [storeCache, Store.tick, Store.find, hlt]
    rw [worker_hit storeCache exp ctx2 param n _ (by rw [hget]), hget]
    simp only [hrt]
    rfl

theorem NewHandlerRun_idempotent_witness :
    ParseInt "10" = (10, none) ∧ (5 : Int) < 15 ∧ 1 ≤ 100 ∧ (10 : Int) ≤ ((100 : Nat) : Int)
      ∧ (NewHandlerRun 100 { level := 0 } storeCache 15 { done := false } SelectCase.result "10"
            (Store.empty 0)
          = some ({ now := 0, entries := [("10", FormatInt (Fibonacci 10), 0 + 15)] },
              [Event.cacheGet "10", Event.log "DEBUG" "cache miss; calculating the fib(n)",
               Event.fibonacci 10, Event.log "DEBUG" "fib(n) calculated",
               Event.cacheSet "10" (FormatInt (Fibonacci 10)) 15,
               Event.log "INFO" "request completed"],
              some { contentType := "application/json", code := 200,
                     body := [("result", JSONValue.int (Fibonacci 10))] })
        ∧ NewHandlerRun 100 { level := 0 } storeCache 15 { done := false } SelectCase.result
            "10"
            (Store.tick { now := 0, entries := [("10", FormatInt (Fibonacci 10), 0 + 15)] } 5)
          = some ({ now := 0 + 5, entries := [("10", FormatInt (Fibonacci 10), 0 + 15)] },
              [Event.cacheGet "10", Event.log "DEBUG" "cache hit; returning the cached value",
               Event.log "INFO" "request completed"],
              some { contentType := "application/json", code := 200,
                     body := [("result", JSONValue.int (Fibonacci 10))] })
        ∧ ParseInt (FormatInt (Fibonacci 10)) = (Fibonacci 10, none)
        ∧ ParseInt (FormatInt 10) = (10, none)) :=
  ⟨by decide, by decide, by decide, by decide,
    NewHandlerRun_idempotent 100 { level := 0 } 15 5 0 { done := false } { done := false }
      "10" 10 (by decide) (by decide) (by decide) (by decide)⟩

/-! ## The goroutine after a cancellation -/

theorem step_keeps_blocked {σ : Type} (c : Cache σ) (exp : Int) (param : String) (n : Int)
    (m : Move) (st st1 : ReqState σ) (hs : step c exp param n m st = some st1)
    (hh : st.handler = HandlerPC.returnedCancelled) (ht : st.task ≠ TaskPC.returned) :
    st1.handler = HandlerPC.returnedCancelled ∧ st1.task ≠ TaskPC.returned := by
  cases m with
  | task =>
    simp only [step] at hs
    split at hs
    · split at hs <;> (cases hs; exact ⟨hh, by simp⟩)
    · cases hs; exact ⟨hh, by simp⟩
    · cases hs; exact ⟨hh, by simp⟩
    · cases hs
    · cases hs
  | receive =>
    simp only [step] at hs
    split at hs
    · rename_i h1 h2
      rw [hh] at h2
      cases h2
    · cases hs
  | cancel =>
    simp only [step] at hs
    cases hs
    exact ⟨hh, ht⟩
  | ctxDone =>
    simp only [step] at hs
    split at hs
    · rename_i h1 h2
      rw [hh] at h1
      cases h1
    · cases hs

theorem run_keeps_blocked {σ : Type} (c : Cache σ) (exp : Int) (param : String) (n : Int)
    (moves : List Move) (st : ReqState σ)
    (hh : st.handler = HandlerPC.returnedCancelled) (ht : st.task ≠ TaskPC.returned) :
    (run c exp param n moves st).handler = HandlerPC.returnedCancelled
      ∧ (run c exp param n moves st).task ≠ TaskPC.returned := by
  induction moves generalizing st with
  | nil => exact ⟨hh, ht⟩
  | cons m ms ih =>
    rw [run]
    cases hs : step c exp param n m st with
    | none => exact ih st hh ht
    | some st1 =>
      obtain ⟨h1, h2⟩ := step_keeps_blocked c exp param n m st st1 hs hh ht
      exact ih st1 h1 h2

/-- C8 fails on the code: when the context is cancelled and the `select` takes
`<-ctx.Done()` before receiving, the handler returns without a response and,
whatever happens afterwards, the goroutine never returns: nobody is left to
receive from the unbuffered channel `result`. -/
theorem goroutine_never_returns_after_cancel {σ : Type} (c : Cache σ) (exp : Int)
    (param : String) (n : Int) (s : σ) (moves : List Move) :
    (run c exp param n (Move.cancel :: Move.ctxDone :: moves) (ReqState.init s)).handler
        = HandlerPC.returnedCancelled
      ∧ (run c exp param n (Move.cancel :: Move.ctxDone :: moves) (ReqState.init s)).task
        ≠ TaskPC.returned := by
  have h : run c exp param n (Move.cancel :: Move.ctxDone :: moves) (ReqState.init s)
      = run c exp param n moves
          { cache := s, ctx := { done := true }, task := TaskPC.atGet,
            handler := HandlerPC.returnedCancelled } := rfl
  rw [h]
  exact run_keeps_blocked c exp param n moves _ rfl (by simp)

/-- The request `GET /fib/10` on the null backend, cancelled before the result
is received: after its three statements the goroutine stands at `result <- 55`
and neither it nor a receive can move; without the cancellation the same
goroutine returns. -/
theorem goroutine_blocked_at_send :
    (run NopCache 15 "10" 10 [Move.cancel, Move.ctxDone, Move.task, Move.task, Move.task]
        (ReqState.init ())).task = TaskPC.atSend (Fibonacci 10)
      ∧ Fibonacci 10 = 55
      ∧ (step NopCache 15 "10" 10 Move.task
          (run NopCache 15 "10" 10 [Move.cancel, Move.ctxDone, Move.task, Move.task, Move.task]
            (ReqState.init ()))).isNone = true
      ∧ (step NopCache 15 "10" 10 Move.receive
          (run NopCache 15 "10" 10 [Move.cancel, Move.ctxDone, Move.task, Move.task, Move.task]
            (ReqState.init ()))).isNone = true
      ∧ (run NopCache 15 "10" 10 [Move.task, Move.task, Move.task, Move.receive]
          (ReqState.init ())).task = TaskPC.returned := by
  refine ⟨rfl, ?_, rfl, rfl, rfl⟩
  have h := Fibonacci_eq_specF (show 10 ≤ 92 by decide)
  rw [show ((10 : Nat) : Int) = 10 from rfl] at h
  rw [h]; decide

end YtGoPlugin
